import Mathlib

/-!
Shallow embedding of the agent registry and per-agent retrieval pipeline of
the multi-agent RAG service (src/agents.py and src/services.py), together
with proofs of its specified properties.

External collaborators (Ollama embeddings, the Chroma vector store and the
LLM chain) are modelled abstractly: the Chroma collection is a mapping from
document id to document with upsert-by-id insertion, nearest-neighbor search
is determined by an abstract relevance score (smaller is more relevant), and
the LLM chain is an abstract function that either answers or raises.
-/

namespace RagSpec

/-- Document as in langchain_core.documents: page content plus metadata,
modelled as string-keyed string values. -/
structure Document where
  page_content : String
  metadata : List (String × String)
deriving DecidableEq

/-- Python dict lookup `m.get(k)`: the unique binding for the key, if any. -/
def dictGet {α : Type} (m : List (String × α)) (k : String) : Option α :=
  (m.find? (fun p => p.1 == k)).map Prod.snd

/-- Python dict assignment `m[k] = v`: update in place if the key exists
(keeping its position), otherwise append the new binding. -/
def dictInsert {α : Type} (m : List (String × α)) (k : String) (v : α) :
    List (String × α) :=
  if m.any (fun p => p.1 == k) then
    m.map (fun p => if p.1 == k then (k, v) else p)
  else m ++ [(k, v)]

/-- Python dict deletion `del m[k]` (and directory removal): drop the key. -/
def dictErase {α : Type} (m : List (String × α)) (k : String) :
    List (String × α) :=
  m.filter (fun p => p.1 != k)

/-- Chroma collection contents: document id to document, in insertion order.
langchain Chroma `add_documents` with explicit ids upserts by id. -/
structure VectorStore where
  entries : List (String × Document)
deriving DecidableEq

/-- Chroma `add_documents(documents=..., ids=...)`: upsert each (id, doc)
pair in order. -/
def VectorStore.addWithIds (vs : VectorStore) (documents : List Document)
    (ids : List String) : VectorStore :=
  ⟨(ids.zip documents).foldl (fun acc p => dictInsert acc p.1 p.2) vs.entries⟩

/-- Nearest-neighbor search of the external vector store, modelled
abstractly: an embedding-based score (smaller is more relevant) determines
the store's relevance order, and the search returns the `k` best entries. -/
def VectorStore.similaritySearch (score : String → Document → Nat)
    (vs : VectorStore) (query : String) (k : Nat) : List Document :=
  (List.insertionSort (fun a b => score query a ≤ score query b)
    (vs.entries.map Prod.snd)).take k

/-- Configuration for a RAG agent (class AgentConfig in src/agents.py). -/
structure AgentConfig where
  agent_id : String
  name : String
  description : String
  system_prompt : String
  model : String
  collection_name : String
deriving DecidableEq

/-- The AgentConfig constructor: `model` defaults to "llama3.2:1b" at call
sites that omit it, and `collection_name` defaults to `agent_<agent_id>`
when none is passed. -/
def AgentConfig.init (agent_id name description system_prompt model : String)
    (collection_name : Option String) : AgentConfig :=
  { agent_id := agent_id, name := name, description := description,
    system_prompt := system_prompt, model := model,
    collection_name := collection_name.getD ("agent_" ++ agent_id) }

/-- Runtime agent (class RAGAgent): holds its config. Its embedding, LLM and
prompt handles are external; its Chroma collection is persisted in the
per-agent directory `./agents_db/<agent_id>` and lives in the `Storage`
state below, keyed by agent id. -/
structure RAGAgent where
  config : AgentConfig
deriving DecidableEq

def RAGAgent.db_location (a : RAGAgent) : String :=
  "./agents_db/" ++ a.config.agent_id

/-- The `agents_db` tree: one entry per existing per-agent directory,
holding that agent's persisted collection contents. -/
abbrev Storage := List (String × RagSpec.VectorStore)

/-- RAGAgent.__init__: `os.makedirs(db_location, exist_ok=True)` and opening
the Chroma collection — an existing directory keeps its contents, a missing
one is created with an empty collection. -/
def RAGAgent.init (config : AgentConfig) (storage : Storage) :
    RAGAgent × Storage :=
  (⟨config⟩,
   if storage.any (fun p => p.1 == config.agent_id) then storage
   else storage ++ [(config.agent_id, ⟨[]⟩)])

/-- The ids assigned by RAGAgent.add_documents:
`[f"{agent_id}_{i}" for i in range(len(documents))]`. -/
def addDocIds (agent_id : String) (documents : List Document) : List String :=
  (List.range documents.length).map (fun i => agent_id ++ "_" ++ Nat.repr i)

/-- RAGAgent.add_documents: upsert the batch into this agent's collection
under the ids above. -/
def RAGAgent.add_documents (a : RAGAgent) (documents : List Document)
    (storage : Storage) : Storage :=
  storage.map (fun p =>
    if p.1 == a.config.agent_id then
      (p.1, p.2.addWithIds documents (addDocIds a.config.agent_id documents))
    else p)

/-- Result shape `{"content": ..., "metadata": ...}` used by
get_relevant_documents and answer_question. -/
structure DocDict where
  content : String
  metadata : List (String × String)
deriving DecidableEq

def Document.toDict (d : Document) : DocDict :=
  ⟨d.page_content, d.metadata⟩

/-- The retriever handle built in RAGAgent.__init__:
`as_retriever(search_kwargs={"k": 5})`, so invoking it searches with k=5. -/
def RAGAgent.retrieverInvoke (score : String → Document → Nat) (a : RAGAgent)
    (question : String) (storage : Storage) : List Document :=
  ((dictGet storage a.config.agent_id).getD ⟨[]⟩).similaritySearch score question 5

/-- RAGAgent.get_relevant_documents. -/
def RAGAgent.get_relevant_documents (score : String → Document → Nat)
    (a : RAGAgent) (question : String) (storage : Storage) : List DocDict :=
  (a.retrieverInvoke score question storage).map Document.toDict

/-- External LLM chain (`self.prompt | self.model`): given the agent's
config, the retrieved documents and the question, it either produces an
answer string or raises (modelled as `Except.error` with the message). -/
abbrev LlmChain := AgentConfig → List Document → String → Except String String

/-- Result shape of RAGAgent.answer_question. -/
structure AnswerResult where
  agent_id : String
  agent_name : String
  question : String
  answer : String
  relevant_documents : List DocDict
deriving DecidableEq

/-- RAGAgent.answer_question: retrieve, invoke the chain, package. -/
def RAGAgent.answer_question (score : String → Document → Nat)
    (llm : LlmChain) (a : RAGAgent) (question : String) (storage : Storage) :
    Except String AnswerResult :=
  let docs := a.retrieverInvoke score question storage
  (llm a.config docs question).map (fun result =>
    { agent_id := a.config.agent_id, agent_name := a.config.name,
      question := question, answer := result,
      relevant_documents := docs.map Document.toDict })

/-- One CSV row: column name to cell value (pandas row, stringified). -/
abbrev Row := List (String × String)

/-- Content built by add_csv_documents for one row: title and content cells
joined by a space, or just the content cell when the two columns coincide;
`none` when the row lacks a needed column (pandas raises a KeyError). -/
def rowContent (row : Row) (title_col content_col : String) : Option String :=
  if title_col ≠ content_col then
    match dictGet row title_col, dictGet row content_col with
    | some t, some c => some (t ++ " " ++ c)
    | _, _ => none
  else dictGet row content_col

/-- Metadata built by add_csv_documents for one row: each requested column
present in the row, in request order; a falsy `metadata_cols` gives `{}`. -/
def rowMetadata (row : Row) (metadata_cols : Option (List String)) :
    List (String × String) :=
  match metadata_cols with
  | none => []
  | some cols => cols.filterMap (fun c => (dictGet row c).map (fun v => (c, v)))

/-- The Document built by add_csv_documents for one row. -/
def buildRowDoc (row : Row) (title_col content_col : String)
    (metadata_cols : Option (List String)) : Option Document :=
  (rowContent row title_col content_col).map
    (fun content => ⟨content, rowMetadata row metadata_cols⟩)

/-- RAGAgent.add_csv_documents: build one document per row, in row order,
then hand the batch to add_documents. -/
def RAGAgent.add_csv_documents (a : RAGAgent) (rows : List Row)
    (title_col content_col : String) (metadata_cols : Option (List String))
    (storage : Storage) : Option Storage :=
  (rows.mapM (fun row => buildRowDoc row title_col content_col metadata_cols)).map
    (fun documents => a.add_documents documents storage)

/-- State owned by AgentManager plus the on-disk state it manages: the
in-memory agent map (a Python dict, insertion ordered), the contents of
`agents_config.json` (`none` when the file does not exist), and the
`agents_db` storage tree. -/
structure ManagerState where
  agents : List (String × RagSpec.RAGAgent)
  config_file : Option (List RagSpec.AgentConfig)
  storage : Storage
deriving DecidableEq

/-- The record list written by AgentManager.save_agents_config: one record
per agent, in map order, holding all six config fields. -/
def saveConfigs (agents : List (String × RAGAgent)) : List AgentConfig :=
  agents.map (fun p => p.2.config)

/-- AgentManager.save_agents_config: rewrite the whole config file. -/
def ManagerState.save_agents_config (st : ManagerState) : ManagerState :=
  { st with config_file := some (saveConfigs st.agents) }

/-- The loop body of AgentManager.load_agents_config: for each stored
record, `AgentConfig(**config_data)` rebuilds the config (all six fields are
present, so the constructor defaults do not fire) and
`self.agents[config.agent_id] = RAGAgent(config)` registers a fresh agent
handle over the existing storage. -/
def loadAgents (configs : List AgentConfig) (storage : Storage) :
    List (String × RAGAgent) × Storage :=
  configs.foldl (fun acc c =>
    let p := RAGAgent.init c acc.2
    (dictInsert acc.1 c.agent_id p.1, p.2)) ([], storage)

/-- The config built by AgentManager.create_default_restaurant_agent. -/
def restaurantConfig : AgentConfig :=
  AgentConfig.init "restaurant" "Restaurant Expert"
    "Expert in answering questions about pizza restaurant reviews"
    "You are an expert in answering questions about a pizza restaurant"
    "llama3.2:1b" none

/-- AgentManager.__init__ / load_agents_config: when the config file exists,
rebuild one agent per stored record; otherwise create the default
restaurant agent (ingesting the reviews CSV when that file exists — `csv`
is its parsed rows, `none` when absent) and persist. -/
def AgentManager.init (file : Option (List AgentConfig))
    (csv : Option (List Row)) (storage : Storage) : Option ManagerState :=
  match file with
  | some configs =>
      let p := loadAgents configs storage
      some { agents := p.1, config_file := some configs, storage := p.2 }
  | none =>
      let p := RAGAgent.init restaurantConfig storage
      let st1 := match csv with
        | some rows =>
            p.1.add_csv_documents rows "Title" "Review" (some ["Rating", "Date"]) p.2
        | none => some p.2
      st1.map (fun s =>
        let agents := dictInsert [] "restaurant" p.1
        { agents := agents, config_file := some (saveConfigs agents),
          storage := s })

/-- AgentManager.create_agent: construct the agent, register it under its
id (a Python dict assignment — an existing entry is replaced in place),
persist the full config set, return the agent. -/
def ManagerState.create_agent (st : ManagerState) (config : AgentConfig) :
    ManagerState × RAGAgent :=
  let p := RAGAgent.init config st.storage
  let agents := dictInsert st.agents config.agent_id p.1
  ({ agents := agents, config_file := some (saveConfigs agents),
     storage := p.2 }, p.1)

/-- AgentManager.get_agent: `self.agents.get(agent_id)`. -/
def ManagerState.get_agent (st : ManagerState) (agent_id : String) :
    Option RAGAgent :=
  dictGet st.agents agent_id

/-- Entry shape of AgentManager.list_agents. -/
structure AgentSummary where
  name : String
  description : String
  model : String
deriving DecidableEq

/-- AgentManager.list_agents. -/
def ManagerState.list_agents (st : ManagerState) :
    List (String × AgentSummary) :=
  st.agents.map (fun p =>
    (p.1, ⟨p.2.config.name, p.2.config.description, p.2.config.model⟩))

/-- AgentManager.delete_agent: when the id is registered, remove the storage
directory (if it exists), evict the agent from the map, re-persist the
remaining configs and return True; otherwise return False. -/
def ManagerState.delete_agent (st : ManagerState) (agent_id : String) :
    ManagerState × Bool :=
  if st.agents.any (fun p => p.1 == agent_id) then
    let agents := dictErase st.agents agent_id
    ({ agents := agents, config_file := some (saveConfigs agents),
       storage := dictErase st.storage agent_id }, true)
  else (st, false)

/-- Result of MultiAgentQAService.delete_agent. -/
structure DeleteResult where
  agent_id : String
  status : String
deriving DecidableEq

/-- MultiAgentQAService.delete_agent. -/
def MultiAgentQAService.delete_agent (st : ManagerState) (agent_id : String) :
    DeleteResult × ManagerState :=
  let p := st.delete_agent agent_id
  (⟨agent_id, if p.2 then "deleted" else "not_found"⟩, p.1)

/-- Result of MultiAgentQAService.create_agent. -/
structure CreateResult where
  agent_id : String
  name : String
  description : String
  model : String
  status : String
deriving DecidableEq

/-- MultiAgentQAService.create_agent: builds the AgentConfig (no
collection_name passed, so the default `agent_<id>` fires), delegates to
the manager and reports a created summary. -/
def MultiAgentQAService.create_agent (st : ManagerState)
    (agent_id name description system_prompt model : String) :
    CreateResult × ManagerState :=
  let config := AgentConfig.init agent_id name description system_prompt model none
  let p := st.create_agent config
  (⟨agent_id, name, description, model, "created"⟩, p.1)

/-- Result of MultiAgentQAService.add_documents_to_agent: either the error
dict `{"error": ...}` or the success dict. -/
inductive AddDocsResult where
  | err (error : String)
  | ok (agent_id : String) (documents_added : Nat) (status : String)
deriving DecidableEq

/-- MultiAgentQAService.add_documents_to_agent. -/
def MultiAgentQAService.add_documents_to_agent (st : ManagerState)
    (agent_id : String) (documents : List DocDict) :
    AddDocsResult × ManagerState :=
  match st.get_agent agent_id with
  | none => (.err ("Agent " ++ agent_id ++ " not found"), st)
  | some agent =>
      let doc_objects := documents.map (fun d => Document.mk d.content d.metadata)
      let storage := agent.add_documents doc_objects st.storage
      (.ok agent_id documents.length "success", { st with storage := storage })

/-- Result of MultiAgentQAService.get_relevant_documents. -/
inductive DocsResult where
  | err (error : String)
  | ok (agent_id : String) (agent_name : String) (question : String)
      (documents : List DocDict)
deriving DecidableEq

/-- MultiAgentQAService.get_relevant_documents. -/
def MultiAgentQAService.get_relevant_documents (score : String → Document → Nat)
    (st : ManagerState) (agent_id question : String) : DocsResult :=
  match st.get_agent agent_id with
  | none => .err ("Agent " ++ agent_id ++ " not found")
  | some agent =>
      .ok agent_id agent.config.name question
        (agent.get_relevant_documents score question st.storage)

/-- Result of MultiAgentQAService.ask_agent: the error dict for a missing
agent, or the answer dict. A raised LLM/store failure propagates as the
outer `Except.error`. -/
inductive AskResult where
  | err (error : String)
  | answered (r : AnswerResult)
deriving DecidableEq

/-- MultiAgentQAService.ask_agent. -/
def MultiAgentQAService.ask_agent (score : String → Document → Nat)
    (llm : LlmChain) (st : ManagerState) (agent_id question : String) :
    Except String AskResult :=
  match st.get_agent agent_id with
  | none => Except.ok (.err ("Agent " ++ agent_id ++ " not found"))
  | some agent =>
      (agent.answer_question score llm question st.storage).map AskResult.answered

/-- One entry of the `responses` dict of ask_all_agents: the per-agent error
dict `{"error", "agent_id", "agent_name"}` or the answer dict. -/
inductive AgentResponse where
  | failure (error : String) (agent_id : String) (agent_name : String)
  | answer (r : AnswerResult)
deriving DecidableEq

/-- Result of MultiAgentQAService.ask_all_agents. -/
structure AskAllResult where
  question : String
  responses : List (String × AgentResponse)
  total_agents : Nat
deriving DecidableEq

/-- MultiAgentQAService.ask_all_agents: fan out over every registered agent,
catching each agent's raised failure as its error entry; `total_agents` is
`len(responses)`. -/
def MultiAgentQAService.ask_all_agents (score : String → Document → Nat)
    (llm : LlmChain) (st : ManagerState) (question : String) : AskAllResult :=
  let responses := st.agents.map (fun p =>
    match p.2.answer_question score llm question st.storage with
    | Except.ok r => (p.1, AgentResponse.answer r)
    | Except.error e => (p.1, AgentResponse.failure e p.1 p.2.config.name))
  { question := question, responses := responses,
    total_agents := responses.length }

/-- Result of the legacy RestaurantQAService.answer_question. -/
structure LegacyAnswer where
  question : String
  answer : String
  relevant_reviews : List DocDict
deriving DecidableEq

/-- RestaurantQAService.get_relevant_reviews: delegate to the fixed
"restaurant" agent; an error result becomes the empty list. -/
def RestaurantQAService.get_relevant_reviews (score : String → Document → Nat)
    (st : ManagerState) (question : String) : List DocDict :=
  match MultiAgentQAService.get_relevant_documents score st "restaurant" question with
  | .err _ => []
  | .ok _ _ _ documents => documents

/-- RestaurantQAService.answer_question: delegate to ask_agent on the fixed
"restaurant" agent; an error dict becomes an `Error: ...` answer with no
reviews. -/
def RestaurantQAService.answer_question (score : String → Document → Nat)
    (llm : LlmChain) (st : ManagerState) (question : String) :
    Except String LegacyAnswer :=
  (MultiAgentQAService.ask_agent score llm st "restaurant" question).map (fun r =>
    match r with
    | .err e => ⟨question, "Error: " ++ e, []⟩
    | .answered a => ⟨a.question, a.answer, a.relevant_documents⟩)

/-! Concrete sample data used to evaluate the definitions. -/

def score0 : String → Document → Nat := fun _ _ => 0

def llmOk : LlmChain := fun _ _ _ => Except.ok "fine"

def llmBoom : LlmChain := fun _ _ _ => Except.error "boom"

def docA : Document := ⟨"alpha", []⟩

def docB : Document := ⟨"beta", []⟩

def docC : Document := ⟨"gamma", []⟩

def cfgA1 : AgentConfig := ⟨"a", "old", "d", "p", "m", "agent_a"⟩

def cfgA2 : AgentConfig := ⟨"a", "new", "d", "p", "m", "agent_a"⟩

def agentA : RAGAgent := ⟨cfgA1⟩

def stEmpty : ManagerState := ⟨[], none, []⟩

def stOne : ManagerState :=
  ⟨[("a", agentA)], some (saveConfigs [("a", agentA)]), [("a", ⟨[]⟩)]⟩

/-! Helper lemmas about the Python dict model. -/

theorem dictGet_nil {α : Type} (k : String) : dictGet ([] : List (String × α)) k = none := rfl

theorem dictGet_eq_none_iff {α : Type} (m : List (String × α)) (k : String) :
    dictGet m k = none ↔ m.any (fun p => p.1 == k) = false := by
  rw [dictGet, Option.map_eq_none', List.find?_eq_none, List.any_eq_false]

theorem find?_map_update {α : Type} (m : List (String × α)) (k : String) (v : α)
    (h : m.any (fun p => p.1 == k) = true) :
    (m.map (fun p => if p.1 == k then (k, v) else p)).find? (fun p => p.1 == k) =
      some (k, v) := by
  induction m with
  | nil => simp at h
  | cons p t ih =>
    rw [List.map_cons]
    by_cases hp : (p.1 == k) = true
    · rw [if_pos hp]
      exact List.find?_cons_of_pos _ (by simp)
    · rw [if_neg hp, List.find?_cons_of_neg _ (by simpa using hp)]
      rw [List.any_cons, Bool.or_eq_true] at h
      exact ih (h.resolve_left hp)

theorem find?_map_update_ne {α : Type} (m : List (String × α)) (k k' : String) (v : α)
    (h : k' ≠ k) :
    (m.map (fun p => if p.1 == k then (k, v) else p)).find? (fun p => p.1 == k') =
      m.find? (fun p => p.1 == k') := by
  induction m with
  | nil => rfl
  | cons p t ih =>
    rw [List.map_cons]
    by_cases hp : (p.1 == k) = true
    · have hpk : p.1 = k := eq_of_beq hp
      have h1 : ((k : String) == k') = false :=
        beq_eq_false_iff_ne.2 (fun hc => h hc.symm)
      have h2 : (p.1 == k') = false := by rw [hpk]; exact h1
      rw [if_pos hp]
      simp only [List.find?_cons, h1, h2]
      exact ih
    · rw [if_neg hp]
      by_cases hp' : (p.1 == k') = true
      · simp only [List.find?_cons, hp']
      · have hp'' : (p.1 == k') = false := by rwa [Bool.not_eq_true] at hp'
        simp only [List.find?_cons, hp'']
        exact ih

theorem dictGet_dictInsert_self {α : Type} (m : List (String × α)) (k : String) (v : α) :
    dictGet (dictInsert m k v) k = some v := by
  rw [dictInsert]
  by_cases h : m.any (fun p => p.1 == k)
  · rw [if_pos h, dictGet, find?_map_update m k v h, Option.map_some']
  · rw [if_neg h, dictGet, List.find?_append]
    have hnone : m.find? (fun p => p.1 == k) = none := by
      rw [List.find?_eq_none]
      intro x hx hxk
      exact h (List.any_eq_true.2 ⟨x, hx, hxk⟩)
    rw [hnone]
    simp [List.find?_cons_of_pos]

theorem dictGet_dictInsert_ne {α : Type} (m : List (String × α)) (k k' : String) (v : α)
    (h : k' ≠ k) : dictGet (dictInsert m k v) k' = dictGet m k' := by
  rw [dictInsert]
  by_cases hm : m.any (fun p => p.1 == k)
  · rw [if_pos hm, dictGet, dictGet, find?_map_update_ne m k k' v h]
  · rw [if_neg hm, dictGet, dictGet, List.find?_append]
    have hnone : ([(k, v)] : List (String × α)).find? (fun p => p.1 == k') = none := by
      refine List.find?_eq_none.2 ?_
      intro x hx
      rw [List.mem_singleton] at hx
      subst hx
      rw [Bool.not_eq_true]
      exact beq_eq_false_iff_ne.2 (fun hc => h hc.symm)
    rw [hnone]
    cases m.find? (fun p => p.1 == k') <;> rfl

theorem dictInsert_of_missing {α : Type} (m : List (String × α)) (k : String) (v : α)
    (h : m.any (fun p => p.1 == k) = false) : dictInsert m k v = m ++ [(k, v)] := by
  rw [dictInsert, if_neg (by rw [h]; exact Bool.false_ne_true)]

theorem dictGet_dictErase_self {α : Type} (m : List (String × α)) (k : String) :
    dictGet (dictErase m k) k = none := by
  rw [dictGet_eq_none_iff, List.any_eq_false]
  intro p hp
  rw [dictErase, List.mem_filter] at hp
  simpa using hp.2

theorem find?_filter_ne {α : Type} (m : List (String × α)) (k k' : String)
    (h : k' ≠ k) :
    (m.filter (fun p => p.1 != k)).find? (fun p => p.1 == k') =
      m.find? (fun p => p.1 == k') := by
  induction m with
  | nil => rfl
  | cons p t ih =>
    by_cases hpk : (p.1 == k) = true
    · have hpk' : (p.1 == k') = false := by
        rw [eq_of_beq hpk]
        exact beq_eq_false_iff_ne.2 (fun hc => h hc.symm)
      rw [List.filter_cons_of_neg (by simp [bne, hpk])]
      simp only [List.find?_cons, hpk']
      exact ih
    · rw [List.filter_cons_of_pos (by simp [bne]; simpa using hpk)]
      by_cases hp' : (p.1 == k') = true
      · simp only [List.find?_cons, hp']
      · have hp'' : (p.1 == k') = false := by rwa [Bool.not_eq_true] at hp'
        simp only [List.find?_cons, hp'']
        exact ih

theorem dictGet_dictErase_ne {α : Type} (m : List (String × α)) (k k' : String)
    (h : k' ≠ k) : dictGet (dictErase m k) k' = dictGet m k' := by
  rw [dictGet, dictGet, dictErase, find?_filter_ne m k k' h]

/-! Injectivity of the decimal rendering used by the document ids. -/

/-- Left inverse of `Nat.digitChar` on decimal digits. -/
def digitVal (c : Char) : Nat :=
  if c = '0' then 0 else if c = '1' then 1 else if c = '2' then 2 else
  if c = '3' then 3 else if c = '4' then 4 else if c = '5' then 5 else
  if c = '6' then 6 else if c = '7' then 7 else if c = '8' then 8 else
  if c = '9' then 9 else 10

theorem digitVal_digitChar : ∀ d, d < 10 → digitVal (Nat.digitChar d) = d := by decide

theorem toDigitsCore_eq_digits : ∀ (fuel n : Nat) (ds : List Char), n < fuel → 0 < n →
    Nat.toDigitsCore 10 fuel n ds =
      ((Nat.digits 10 n).map Nat.digitChar).reverse ++ ds := by
  intro fuel
  induction fuel with
  | zero => intro n ds h; omega
  | succ f ih =>
    intro n ds hlt hpos
    have hdig : Nat.digits 10 n = n % 10 :: Nat.digits 10 (n / 10) :=
      Nat.digits_def' (by norm_num) hpos
    by_cases hdiv : n / 10 = 0
    · simp only [Nat.toDigitsCore, hdiv, if_true]
      rw [hdig, hdiv, Nat.digits_zero, List.map_cons, List.map_nil,
        List.reverse_cons, List.reverse_nil, List.nil_append, List.singleton_append]
    · simp only [Nat.toDigitsCore, hdiv, if_false]
      have hn10 : n / 10 < n := Nat.div_lt_self hpos (by norm_num)
      rw [ih (n / 10) (Nat.digitChar (n % 10) :: ds) (by omega)
        (Nat.pos_of_ne_zero hdiv)]
      rw [hdig, List.map_cons, List.reverse_cons, List.append_assoc,
        List.singleton_append]

theorem repr_eq_digits (n : Nat) (h : 0 < n) :
    Nat.repr n = (((Nat.digits 10 n).map Nat.digitChar).reverse).asString := by
  show (Nat.toDigits 10 n).asString = _
  rw [Nat.toDigits, toDigitsCore_eq_digits (n + 1) n [] (by omega) h,
    List.append_nil]

theorem digits_map_digitVal (k : Nat) :
    ((Nat.digits 10 k).map Nat.digitChar).map digitVal = Nat.digits 10 k := by
  rw [List.map_map]
  have h : ∀ d ∈ Nat.digits 10 k, (digitVal ∘ Nat.digitChar) d = id d := by
    intro d hd
    exact digitVal_digitChar d (Nat.digits_lt_base (by norm_num) hd)
  rw [List.map_congr_left h, List.map_id]

theorem digits_map_digitChar_inj {m n : Nat}
    (h : (Nat.digits 10 m).map Nat.digitChar = (Nat.digits 10 n).map Nat.digitChar) :
    m = n := by
  have hd : Nat.digits 10 m = Nat.digits 10 n := by
    rw [← digits_map_digitVal m, ← digits_map_digitVal n, h]
  have := congrArg (Nat.ofDigits 10) hd
  rwa [Nat.ofDigits_digits, Nat.ofDigits_digits] at this

theorem reprInjective : Function.Injective Nat.repr := by
  have key : ∀ m n : Nat, 0 < m → 0 < n → Nat.repr m = Nat.repr n → m = n := by
    intro m n hm hn h
    rw [repr_eq_digits m hm, repr_eq_digits n hn] at h
    have hd : ((Nat.digits 10 m).map Nat.digitChar).reverse =
        ((Nat.digits 10 n).map Nat.digitChar).reverse := congrArg String.data h
    exact digits_map_digitChar_inj (List.reverse_injective hd)
  have zero_case : ∀ n : Nat, 0 < n → Nat.repr 0 ≠ Nat.repr n := by
    intro n hn h
    rw [repr_eq_digits n hn] at h
    have hd : (['0'] : List Char) =
        ((Nat.digits 10 n).map Nat.digitChar).reverse := congrArg String.data h
    have h1 : (Nat.digits 10 n).map Nat.digitChar = ['0'] := by
      have h2 := congrArg List.reverse hd
      rw [List.reverse_reverse] at h2
      simpa using h2.symm
    have h2 : Nat.digits 10 n = [0] := by
      rw [← digits_map_digitVal n, h1]
      rfl
    have := congrArg (Nat.ofDigits 10) h2
    rw [Nat.ofDigits_digits] at this
    simp [Nat.ofDigits] at this
    omega
  intro m n h
  rcases Nat.eq_zero_or_pos m with hm | hm <;> rcases Nat.eq_zero_or_pos n with hn | hn
  · omega
  · exact absurd (hm ▸ h) (zero_case n hn)
  · exact absurd (hn ▸ h).symm (zero_case m hm)
  · exact key m n hm hn h

theorem append_repr_inj (aid : String) {i j : Nat}
    (h : aid ++ "_" ++ Nat.repr i = aid ++ "_" ++ Nat.repr j) : i = j := by
  have hd := congrArg String.data h
  rw [String.data_append, String.data_append, String.data_append,
    String.data_append] at hd
  have hr : (Nat.repr i).data = (Nat.repr j).data :=
    List.append_cancel_left hd
  exact reprInjective (String.ext hr)

theorem addDocIds_nodup (aid : String) (documents : List Document) :
    (addDocIds aid documents).Nodup := by
  rw [addDocIds]
  exact (List.nodup_range _).map (fun i j hij => append_repr_inj aid hij)

/-! Characterization of folded upserts (Chroma `add_documents` with ids). -/

theorem foldIns_dictGet {α : Type} (l : List (String × α)) (init : List (String × α))
    (k : String) (hnd : (l.map Prod.fst).Nodup) :
    dictGet (l.foldl (fun acc p => dictInsert acc p.1 p.2) init) k =
      match l.find? (fun p => p.1 == k) with
      | some p => some p.2
      | none => dictGet init k := by
  induction l generalizing init with
  | nil => rfl
  | cons p t ih =>
    rw [List.map_cons, List.nodup_cons] at hnd
    rw [List.foldl_cons, ih _ hnd.2]
    by_cases hk : (p.1 == k) = true
    · have hpk : p.1 = k := eq_of_beq hk
      have hft : t.find? (fun q => q.1 == k) = none := by
        refine List.find?_eq_none.2 ?_
        intro q hq hqk
        exact hnd.1 (hpk ▸ eq_of_beq hqk ▸ List.mem_map_of_mem Prod.fst hq)
      rw [hft]
      simp only [List.find?_cons, hk]
      rw [← hpk]
      exact dictGet_dictInsert_self init p.1 p.2
    · rw [List.find?_cons_of_neg _ (by simpa using hk)]
      cases hft : t.find? (fun q => q.1 == k) with
      | some q => rfl
      | none =>
          exact dictGet_dictInsert_ne init p.1 k p.2
            (fun hc => hk (beq_iff_eq.2 hc.symm))

theorem foldIns_append_of_fresh {α : Type} (l : List (String × α)) :
    ∀ init : List (String × α),
    (∀ p ∈ l, init.any (fun q => q.1 == p.1) = false) →
    (l.map Prod.fst).Nodup →
    l.foldl (fun acc p => dictInsert acc p.1 p.2) init = init ++ l := by
  induction l with
  | nil => intro init _ _; rw [List.foldl_nil, List.append_nil]
  | cons p t ih =>
    intro init hfresh hnd
    rw [List.map_cons, List.nodup_cons] at hnd
    rw [List.foldl_cons,
      dictInsert_of_missing init p.1 p.2 (hfresh p (List.mem_cons_self p t))]
    rw [ih (init ++ [(p.1, p.2)]) ?_ hnd.2]
    · rw [List.append_assoc, List.singleton_append]
    · intro q hq
      rw [List.any_append]
      rw [Bool.or_eq_false_iff]
      constructor
      · exact hfresh q (List.mem_cons_of_mem p hq)
      · have hne : q.1 ≠ p.1 := by
          intro hc
          exact hnd.1 (hc ▸ List.mem_map_of_mem Prod.fst hq)
        simp only [List.any_cons, List.any_nil, Bool.or_false]
        exact beq_eq_false_iff_ne.2 (fun hc => hne hc.symm)

theorem keys_map_update {α : Type} (m : List (String × α)) (k : String) (v : α) :
    (m.map (fun q => if q.1 == k then (k, v) else q)).map Prod.fst = m.map Prod.fst := by
  rw [List.map_map]
  refine List.map_congr_left ?_
  intro q _
  by_cases hq : (q.1 == k) = true
  · simp only [Function.comp_apply, if_pos hq]
    exact (eq_of_beq hq).symm
  · simp only [Function.comp_apply, if_neg hq]

theorem any_key {α : Type} (m : List (String × α)) (c : String) :
    m.any (fun x => x.1 == c) = (m.map Prod.fst).any (fun k => k == c) := by
  induction m with
  | nil => rfl
  | cons p t ih => simp only [List.any_cons, List.map_cons, ih]

theorem foldIns_keys_of_present {α : Type} (l : List (String × α)) :
    ∀ init : List (String × α),
    (∀ p ∈ l, init.any (fun q => q.1 == p.1) = true) →
    (l.foldl (fun acc p => dictInsert acc p.1 p.2) init).map Prod.fst =
      init.map Prod.fst := by
  induction l with
  | nil => intro init _; rfl
  | cons p t ih =>
    intro init hpres
    rw [List.foldl_cons, dictInsert,
      if_pos (hpres p (List.mem_cons_self p t))]
    rw [ih _ ?_, keys_map_update]
    intro q hq
    rw [any_key, keys_map_update, ← any_key]
    exact hpres q (List.mem_cons_of_mem p hq)

/-! Claim theorems. -/

/-- C7: for every agent, `add_documents([])` is a no-op — the agent's store
(and every other agent's store) is unchanged, and no identifier is
assigned. -/
theorem add_documents_nil_noop (a : RAGAgent) (storage : Storage) :
    a.add_documents [] storage = storage ∧
    addDocIds a.config.agent_id [] = [] := by
  have hids : addDocIds a.config.agent_id [] = [] := by
    rw [addDocIds, List.length_nil, List.range_zero, List.map_nil]
  refine ⟨?_, hids⟩
  rw [RAGAgent.add_documents]
  have hpt : ∀ p : String × VectorStore,
      (if p.1 == a.config.agent_id then
        (p.1, p.2.addWithIds [] (addDocIds a.config.agent_id [])) else p) = id p := by
    intro p
    rw [hids]
    by_cases h : (p.1 == a.config.agent_id) = true
    · rw [if_pos h]
      rfl
    · rw [if_neg h]
      rfl
  rw [List.map_congr_left (fun p _ => hpt p), List.map_id]

/-- C9: the service operations add_documents_to_agent,
get_relevant_documents and ask_agent on an unregistered agent id each
return the error dict naming the missing id (no exception is raised), and
leave the registry state unchanged. -/
theorem service_ops_missing_agent (score : String → Document → Nat)
    (llm : LlmChain) (st : ManagerState) (agent_id question : String)
    (documents : List DocDict) (h : st.get_agent agent_id = none) :
    MultiAgentQAService.add_documents_to_agent st agent_id documents =
      (.err ("Agent " ++ agent_id ++ " not found"), st) ∧
    MultiAgentQAService.get_relevant_documents score st agent_id question =
      .err ("Agent " ++ agent_id ++ " not found") ∧
    MultiAgentQAService.ask_agent score llm st agent_id question =
      Except.ok (.err ("Agent " ++ agent_id ++ " not found")) := by
  refine ⟨?_, ?_, ?_⟩
  · rw [MultiAgentQAService.add_documents_to_agent, h]
  · rw [MultiAgentQAService.get_relevant_documents, h]
  · rw [MultiAgentQAService.ask_agent, h]

/-- Witness for C9 at a concrete empty registry and id "x". -/
theorem service_ops_missing_agent_witness :
    MultiAgentQAService.add_documents_to_agent stEmpty "x" [] =
      (.err ("Agent " ++ "x" ++ " not found"), stEmpty) ∧
    MultiAgentQAService.get_relevant_documents score0 stEmpty "x" "q" =
      .err ("Agent " ++ "x" ++ " not found") ∧
    MultiAgentQAService.ask_agent score0 llmOk stEmpty "x" "q" =
      Except.ok (.err ("Agent " ++ "x" ++ " not found")) :=
  service_ops_missing_agent score0 llmOk stEmpty "x" "q" [] rfl

/-- C10: with the fixed legacy agent "restaurant" unregistered, the legacy
surface never raises: get_relevant_reviews returns the empty list and
answer_question returns the question, an answer starting with "Error: ",
and an empty relevant_reviews list. -/
theorem legacy_missing_restaurant (score : String → Document → Nat)
    (llm : LlmChain) (st : ManagerState) (question : String)
    (h : st.get_agent "restaurant" = none) :
    RestaurantQAService.get_relevant_reviews score st question = [] ∧
    RestaurantQAService.answer_question score llm st question =
      Except.ok ⟨question, "Error: " ++ ("Agent " ++ "restaurant" ++ " not found"), []⟩ := by
  constructor
  · rw [RestaurantQAService.get_relevant_reviews,
      MultiAgentQAService.get_relevant_documents, h]
  · rw [RestaurantQAService.answer_question, MultiAgentQAService.ask_agent, h]
    rfl

/-- Witness for C10 at a concrete registry without the restaurant agent. -/
theorem legacy_missing_restaurant_witness :
    RestaurantQAService.get_relevant_reviews score0 stOne "q" = [] ∧
    RestaurantQAService.answer_question score0 llmOk stOne "q" =
      Except.ok ⟨"q", "Error: " ++ ("Agent " ++ "restaurant" ++ " not found"), []⟩ :=
  legacy_missing_restaurant score0 llmOk stOne "q" (by decide)

/-- C1 counterexample: creating an agent whose agent_id "a" is already
registered does not fail with DuplicateAgentError — create_agent has no
failure outcome at all — and it does replace the existing agent: the
registry afterwards maps "a" to the new agent, not the old one. -/
theorem create_duplicate_counterexample :
    stOne.get_agent "a" = some ⟨cfgA1⟩ ∧
    ((stOne.create_agent cfgA2).1).get_agent "a" = some ⟨cfgA2⟩ ∧
    (⟨cfgA2⟩ : RAGAgent) ≠ ⟨cfgA1⟩ := by
  refine ⟨by decide, ?_, by decide⟩
  decide

/-- C1 (amended): create_agent never fails. For every registry state and
config it constructs the agent, registers it under its agent_id — replacing
any previously registered agent with that id — persists the full config
set, and leaves every other id's binding unchanged. -/
theorem create_agent_spec (st : ManagerState) (config : AgentConfig) :
    (st.create_agent config).2 = ⟨config⟩ ∧
    ((st.create_agent config).1).get_agent config.agent_id = some ⟨config⟩ ∧
    (st.create_agent config).1.config_file =
      some (saveConfigs (st.create_agent config).1.agents) ∧
    (∀ k, k ≠ config.agent_id →
      dictGet (st.create_agent config).1.agents k = dictGet st.agents k) := by
  refine ⟨rfl, ?_, rfl, ?_⟩
  · exact dictGet_dictInsert_self st.agents config.agent_id ⟨config⟩
  · intro k hk
    exact dictGet_dictInsert_ne st.agents config.agent_id k ⟨config⟩ hk

/-- Witness for C1's amended theorem at a concrete state and config. -/
theorem create_agent_spec_witness :
    (stOne.create_agent cfgA2).2 = ⟨cfgA2⟩ ∧
    dictGet (stOne.create_agent cfgA2).1.agents "b" = dictGet stOne.agents "b" :=
  ⟨(create_agent_spec stOne cfgA2).1,
   (create_agent_spec stOne cfgA2).2.2.2 "b" (by decide)⟩

/-- C6: delete_agent on an unregistered id returns False (service status
"not_found") and leaves the whole state — registry map, config file and
storage — unchanged; on a registered id it removes the agent's storage
directory, evicts the agent, re-persists the remaining configs, returns
True (service status "deleted"), and leaves every other id's bindings
unchanged. -/
theorem delete_agent_spec (st : ManagerState) (agent_id : String) :
    (st.get_agent agent_id = none →
      st.delete_agent agent_id = (st, false) ∧
      MultiAgentQAService.delete_agent st agent_id =
        (⟨agent_id, "not_found"⟩, st)) ∧
    (∀ agent, st.get_agent agent_id = some agent →
      (st.delete_agent agent_id).2 = true ∧
      ((st.delete_agent agent_id).1).get_agent agent_id = none ∧
      dictGet (st.delete_agent agent_id).1.storage agent_id = none ∧
      (st.delete_agent agent_id).1.config_file =
        some (saveConfigs (st.delete_agent agent_id).1.agents) ∧
      (∀ k, k ≠ agent_id →
        dictGet (st.delete_agent agent_id).1.agents k = dictGet st.agents k ∧
        dictGet (st.delete_agent agent_id).1.storage k = dictGet st.storage k) ∧
      (MultiAgentQAService.delete_agent st agent_id).1 =
        ⟨agent_id, "deleted"⟩) := by
  constructor
  · intro h
    have hany : st.agents.any (fun p => p.1 == agent_id) = false :=
      (dictGet_eq_none_iff st.agents agent_id).1 h
    have hdel : st.delete_agent agent_id = (st, false) := by
      rw [ManagerState.delete_agent, if_neg (by rw [hany]; exact Bool.false_ne_true)]
    refine ⟨hdel, ?_⟩
    rw [MultiAgentQAService.delete_agent, hdel]
    rfl
  · intro agent h
    have hany : st.agents.any (fun p => p.1 == agent_id) = true := by
      by_cases hc : st.agents.any (fun p => p.1 == agent_id) = true
      · exact hc
      · rw [ManagerState.get_agent, (dictGet_eq_none_iff st.agents agent_id).2
          (Bool.not_eq_true _ ▸ hc)] at h
        exact absurd h (by simp)
    have hdel : st.delete_agent agent_id =
        ({ agents := dictErase st.agents agent_id,
           config_file := some (saveConfigs (dictErase st.agents agent_id)),
           storage := dictErase st.storage agent_id }, true) := by
      rw [ManagerState.delete_agent, if_pos hany]
    rw [hdel]
    refine ⟨rfl, ?_, ?_, rfl, ?_, ?_⟩
    · exact dictGet_dictErase_self st.agents agent_id
    · exact dictGet_dictErase_self st.storage agent_id
    · intro k hk
      exact ⟨dictGet_dictErase_ne st.agents agent_id k hk,
        dictGet_dictErase_ne st.storage agent_id k hk⟩
    · rw [MultiAgentQAService.delete_agent, hdel]
      rfl

/-- Witness for C6 at concrete states: a missing id on an empty registry
and a present id on a one-agent registry. -/
theorem delete_agent_spec_witness :
    stEmpty.delete_agent "x" = (stEmpty, false) ∧
    (stOne.delete_agent "a").2 = true ∧
    ((stOne.delete_agent "a").1).get_agent "a" = none :=
  ⟨((delete_agent_spec stEmpty "x").1 rfl).1,
   ((delete_agent_spec stOne "a").2 agentA (by decide)).1,
   ((delete_agent_spec stOne "a").2 agentA (by decide)).2.1⟩

/-- C3: ask_all_agents returns one response entry per registered agent, in
registry order — the error object (error message, agent_id, agent_name) for
an agent whose answer call raised, the normal answer object otherwise — and
total_agents equals the number of registered agents, not the number of
successful answers. -/
theorem ask_all_agents_spec (score : String → Document → Nat) (llm : LlmChain)
    (st : ManagerState) (question : String) :
    (MultiAgentQAService.ask_all_agents score llm st question).question = question ∧
    (MultiAgentQAService.ask_all_agents score llm st question).total_agents =
      st.agents.length ∧
    (MultiAgentQAService.ask_all_agents score llm st question).responses.map Prod.fst =
      st.agents.map Prod.fst ∧
    (∀ aid agent, (aid, agent) ∈ st.agents →
      (∀ e, agent.answer_question score llm question st.storage = Except.error e →
        (aid, AgentResponse.failure e aid agent.config.name) ∈
          (MultiAgentQAService.ask_all_agents score llm st question).responses) ∧
      (∀ ans, agent.answer_question score llm question st.storage = Except.ok ans →
        (aid, AgentResponse.answer ans) ∈
          (MultiAgentQAService.ask_all_agents score llm st question).responses)) := by
  refine ⟨rfl, ?_, ?_, ?_⟩
  · exact List.length_map st.agents _
  · rw [MultiAgentQAService.ask_all_agents]
    rw [List.map_map]
    refine List.map_congr_left ?_
    intro p _
    cases hp : p.2.answer_question score llm question st.storage with
    | ok r => simp only [Function.comp_apply, hp]
    | error e => simp only [Function.comp_apply, hp]
  · intro aid agent hmem
    constructor
    · intro e he
      have : (fun p : String × RAGAgent =>
          match p.2.answer_question score llm question st.storage with
          | Except.ok r => (p.1, AgentResponse.answer r)
          | Except.error e => (p.1, AgentResponse.failure e p.1 p.2.config.name))
            (aid, agent) = (aid, AgentResponse.failure e aid agent.config.name) := by
        simp only [he]
      exact this ▸ List.mem_map_of_mem _ hmem
    · intro ans hans
      have : (fun p : String × RAGAgent =>
          match p.2.answer_question score llm question st.storage with
          | Except.ok r => (p.1, AgentResponse.answer r)
          | Except.error e => (p.1, AgentResponse.failure e p.1 p.2.config.name))
            (aid, agent) = (aid, AgentResponse.answer ans) := by
        simp only [hans]
      exact this ▸ List.mem_map_of_mem _ hmem

/-- Witness for C3 at a concrete one-agent registry whose LLM call raises:
the agent appears as an error entry and total_agents still counts it. -/
theorem ask_all_agents_spec_witness :
    (MultiAgentQAService.ask_all_agents score0 llmBoom stOne "q").total_agents = 1 ∧
    ("a", AgentResponse.failure "boom" "a" agentA.config.name) ∈
      (MultiAgentQAService.ask_all_agents score0 llmBoom stOne "q").responses :=
  ⟨(ask_all_agents_spec score0 llmBoom stOne "q").2.1,
   ((ask_all_agents_spec score0 llmBoom stOne "q").2.2.2 "a" agentA (by decide)).1
     "boom" rfl⟩

/-- C4: the vector-store search returns at most `k` documents, in the
store's relevance order (sorted by ascending score), and returns the empty
list — not an error — on an empty store; consequently
get_relevant_documents (whose retriever fixes k=5) returns at most 5
documents and the empty list when the agent's collection is empty. -/
theorem retrieve_at_most_k (score : String → Document → Nat)
    (vs : VectorStore) (query : String) (k : Nat) :
    (vs.similaritySearch score query k).length ≤ k ∧
    (vs.entries = [] → vs.similaritySearch score query k = []) ∧
    List.Sorted (fun a b => score query a ≤ score query b)
      (vs.similaritySearch score query k) ∧
    (∀ (a : RAGAgent) (storage : Storage) (question : String),
      (a.get_relevant_documents score question storage).length ≤ 5) ∧
    (∀ (a : RAGAgent) (storage : Storage) (question : String),
      ((dictGet storage a.config.agent_id).getD ⟨[]⟩).entries = [] →
      a.get_relevant_documents score question storage = []) := by
  have hlen : ∀ (vs' : VectorStore) (q : String) (k' : Nat),
      (vs'.similaritySearch score q k').length ≤ k' := by
    intro vs' q k'
    rw [VectorStore.similaritySearch]
    exact List.length_take_le k' _
  have hempty : ∀ (vs' : VectorStore) (q : String) (k' : Nat),
      vs'.entries = [] → vs'.similaritySearch score q k' = [] := by
    intro vs' q k' h
    rw [VectorStore.similaritySearch, h, List.map_nil, List.insertionSort,
      List.take_nil]
  refine ⟨hlen vs query k, hempty vs query k, ?_, ?_, ?_⟩
  · rw [VectorStore.similaritySearch]
    haveI : IsTotal Document (fun a b => score query a ≤ score query b) :=
      ⟨fun a b => Nat.le_total (score query a) (score query b)⟩
    haveI : IsTrans Document (fun a b => score query a ≤ score query b) :=
      ⟨fun a b c hab hbc => Nat.le_trans hab hbc⟩
    exact (List.sorted_insertionSort _ _).sublist (List.take_sublist _ _)
  · intro a storage question
    rw [RAGAgent.get_relevant_documents, List.length_map]
    exact hlen _ question 5
  · intro a storage question h
    rw [RAGAgent.get_relevant_documents, RAGAgent.retrieverInvoke,
      hempty _ question 5 h, List.map_nil]

/-- Witness for C4 at a concrete empty store, an agent and a k. -/
theorem retrieve_at_most_k_witness :
    VectorStore.similaritySearch score0 ⟨[]⟩ "q" 3 = [] ∧
    agentA.get_relevant_documents score0 "q" [("a", ⟨[]⟩)] = [] :=
  ⟨(retrieve_at_most_k score0 ⟨[]⟩ "q" 3).2.1 rfl,
   (retrieve_at_most_k score0 ⟨[]⟩ "q" 3).2.2.2.2 agentA [("a", ⟨[]⟩)] "q" (by decide)⟩

/-- C8: add_csv_documents builds each row's content as `"<title> <content>"`
when the title column differs from the content column and as just the
content value when they are equal; attaches exactly the requested metadata
fields present in the row (a row missing a requested field omits that key,
and no metadata is attached beyond the requested fields); and passes the
documents built from the rows, in row order, to add_documents. -/
theorem add_csv_documents_spec (row : Row) (title_col content_col : String)
    (metadata_cols : Option (List String)) :
    (title_col ≠ content_col → ∀ tv cv, dictGet row title_col = some tv →
      dictGet row content_col = some cv →
      buildRowDoc row title_col content_col metadata_cols =
        some ⟨tv ++ " " ++ cv, rowMetadata row metadata_cols⟩) ∧
    (title_col = content_col → ∀ cv, dictGet row content_col = some cv →
      buildRowDoc row title_col content_col metadata_cols =
        some ⟨cv, rowMetadata row metadata_cols⟩) ∧
    (∀ cols cname, dictGet (rowMetadata row (some cols)) cname =
      if cname ∈ cols then dictGet row cname else none) ∧
    rowMetadata row none = [] ∧
    (∀ (a : RAGAgent) (rows : List Row) (storage : Storage)
        (documents : List Document),
      rows.mapM (fun r => buildRowDoc r title_col content_col metadata_cols) =
        some documents →
      a.add_csv_documents rows title_col content_col metadata_cols storage =
        some (a.add_documents documents storage)) := by
  refine ⟨?_, ?_, ?_, rfl, ?_⟩
  · intro hne tv cv htv hcv
    rw [buildRowDoc, rowContent, if_pos hne, htv, hcv]
    rfl
  · intro heq cv hcv
    rw [buildRowDoc, rowContent, if_neg (by rw [heq]; exact fun hc => hc rfl), hcv]
    rfl
  · intro cols cname
    induction cols with
    | nil => rfl
    | cons c0 cs ih =>
      rw [rowMetadata] at ih ⊢
      rw [List.filterMap_cons]
      cases hc0 : dictGet row c0 with
      | some v =>
          simp only [Option.map_some']
          by_cases heq : (c0 == cname) = true
          · have hc : c0 = cname := eq_of_beq heq
            rw [dictGet]
            simp only [List.find?_cons, heq]
            rw [Option.map_some', if_pos (hc ▸ List.mem_cons_self c0 cs), ← hc, hc0]
          · have hc : cname ≠ c0 := fun h => heq (beq_iff_eq.2 (h ▸ rfl))
            have heqf : (c0 == cname) = false := by
              rwa [Bool.not_eq_true] at heq
            rw [dictGet]
            simp only [List.find?_cons, heqf]
            rw [dictGet] at ih
            rw [ih]
            by_cases hmem : cname ∈ cs
            · rw [if_pos hmem, if_pos (List.mem_cons_of_mem c0 hmem)]
            · rw [if_neg hmem, if_neg (by
                intro hcc
                rcases List.mem_cons.1 hcc with h1 | h2
                · exact hc h1
                · exact hmem h2)]
      | none =>
          simp only [Option.map_none']
          rw [ih]
          by_cases hmem : cname ∈ cs
          · rw [if_pos hmem, if_pos (List.mem_cons_of_mem c0 hmem)]
          · rw [if_neg hmem]
            by_cases hcc : cname ∈ c0 :: cs
            · rw [if_pos hcc]
              have : cname = c0 := (List.mem_cons.1 hcc).resolve_right hmem
              rw [this, hc0]
            · rw [if_neg hcc]
  · intro a rows storage documents h
    rw [RAGAgent.add_csv_documents, h, Option.map_some']

/-- Witness for C8 at a concrete row and column choice. -/
theorem add_csv_documents_spec_witness :
    buildRowDoc [("T", "t"), ("C", "c"), ("M", "m")] "T" "C" (some ["M", "Z"]) =
      some ⟨"t" ++ " " ++ "c", rowMetadata [("T", "t"), ("C", "c"), ("M", "m")]
        (some ["M", "Z"])⟩ ∧
    agentA.add_csv_documents [] "T" "C" (some ["M", "Z"]) [] =
      some (agentA.add_documents [] []) :=
  ⟨(add_csv_documents_spec [("T", "t"), ("C", "c"), ("M", "m")] "T" "C"
      (some ["M", "Z"])).1 (by decide) "t" "c" (by decide) (by decide),
   (add_csv_documents_spec [("T", "t"), ("C", "c"), ("M", "m")] "T" "C"
      (some ["M", "Z"])).2.2.2.2 agentA [] [] [] rfl⟩

theorem loadAgents_saveConfigs (agents : List (String × RAGAgent)) :
    ∀ (acc : List (String × RAGAgent)) (storage : Storage),
    (∀ p ∈ agents, p.2.config.agent_id = p.1) →
    (∀ p ∈ agents, acc.any (fun q => q.1 == p.1) = false) →
    ((agents.map Prod.fst).Nodup) →
    (∀ p ∈ agents, storage.any (fun q => q.1 == p.1) = true) →
    (saveConfigs agents).foldl (fun acc c =>
        let p := RAGAgent.init c acc.2
        (dictInsert acc.1 c.agent_id p.1, p.2)) (acc, storage) =
      (acc ++ agents, storage) := by
  induction agents with
  | nil =>
    intro acc storage _ _ _ _
    rw [saveConfigs, List.map_nil, List.foldl_nil, List.append_nil]
  | cons p t ih =>
    intro acc storage h1 h2 hnd h3
    rw [List.map_cons, List.nodup_cons] at hnd
    rw [saveConfigs, List.map_cons, List.foldl_cons]
    have hid : p.2.config.agent_id = p.1 := h1 p (List.mem_cons_self p t)
    have hinit : RAGAgent.init p.2.config storage = (⟨p.2.config⟩, storage) := by
      rw [RAGAgent.init, hid, if_pos (h3 p (List.mem_cons_self p t))]
    have hins : dictInsert acc p.2.config.agent_id (⟨p.2.config⟩ : RAGAgent) =
        acc ++ [p] := by
      rw [hid, dictInsert_of_missing acc p.1 _ (h2 p (List.mem_cons_self p t))]
    have hstep :
        (fun (acc : List (String × RAGAgent) × Storage) (c : AgentConfig) =>
          let q := RAGAgent.init c acc.2
          (dictInsert acc.1 c.agent_id q.1, q.2)) (acc, storage) p.2.config =
          (acc ++ [p], storage) := by
      show (dictInsert acc p.2.config.agent_id (RAGAgent.init p.2.config storage).1,
        (RAGAgent.init p.2.config storage).2) = (acc ++ [p], storage)
      rw [hinit]
      exact congrArg (fun x => (x, storage)) hins
    rw [show saveConfigs t = t.map (fun q => q.2.config) from rfl] at ih
    have hfresh : ∀ q ∈ t, (acc ++ [p]).any (fun x => x.1 == q.1) = false := by
      intro q hq
      rw [List.any_append, Bool.or_eq_false_iff]
      refine ⟨h2 q (List.mem_cons_of_mem p hq), ?_⟩
      have hne : p.1 ≠ q.1 := by
        intro hc
        exact hnd.1 (hc ▸ List.mem_map_of_mem Prod.fst hq)
      simp only [List.any_cons, List.any_nil, Bool.or_false]
      exact beq_eq_false_iff_ne.2 hne
    have hrest := ih (acc ++ [p]) storage
      (fun q hq => h1 q (List.mem_cons_of_mem p hq))
      hfresh hnd.2 (fun q hq => h3 q (List.mem_cons_of_mem p hq))
    refine Eq.trans (congrArg
      (fun x => List.foldl (fun acc c =>
        let q := RAGAgent.init c acc.2
        (dictInsert acc.1 c.agent_id q.1, q.2)) x
        (t.map (fun q => q.2.config))) hstep) ?_
    rw [hrest, List.append_assoc, List.singleton_append]

/-- C5: saving the configuration file and reloading the registry from
scratch from that file reproduces the same agent map — each agent_id bound
to an agent with the same name, description, model, system_prompt and
collection_name — and leaves the storage directories untouched. -/
theorem save_load_roundtrip (st : ManagerState) (csv : Option (List Row))
    (h1 : ∀ p ∈ st.agents, p.2.config.agent_id = p.1)
    (h2 : (st.agents.map Prod.fst).Nodup)
    (h3 : ∀ p ∈ st.agents, st.storage.any (fun q => q.1 == p.1) = true) :
    AgentManager.init (st.save_agents_config).config_file csv st.storage =
      some { agents := st.agents,
             config_file := some (saveConfigs st.agents),
             storage := st.storage } := by
  have hload : loadAgents (saveConfigs st.agents) st.storage =
      (st.agents, st.storage) := by
    rw [loadAgents]
    have := loadAgents_saveConfigs st.agents [] st.storage h1
      (fun p _ => rfl) h2 h3
    rw [this, List.nil_append]
  show AgentManager.init (some (saveConfigs st.agents)) csv st.storage = _
  rw [AgentManager.init, hload]

/-- Witness for C5 at a concrete one-agent registry. -/
theorem save_load_roundtrip_witness :
    AgentManager.init (stOne.save_agents_config).config_file none stOne.storage =
      some { agents := stOne.agents,
             config_file := some (saveConfigs stOne.agents),
             storage := stOne.storage } :=
  save_load_roundtrip stOne none (by decide) (by decide) (by decide)

theorem addDocIds_length (aid : String) (docs : List Document) :
    (addDocIds aid docs).length = docs.length := by
  rw [addDocIds, List.length_map, List.length_range]

theorem mem_addDocIds (aid : String) (docs : List Document) (x : String) :
    x ∈ addDocIds aid docs ↔
      ∃ j, j < docs.length ∧ x = aid ++ "_" ++ Nat.repr j := by
  rw [addDocIds]
  constructor
  · intro hx
    obtain ⟨j, hj, hxe⟩ := List.mem_map.1 hx
    exact ⟨j, List.mem_range.1 hj, hxe.symm⟩
  · rintro ⟨j, hj, rfl⟩
    exact List.mem_map.2 ⟨j, List.mem_range.2 hj, rfl⟩

theorem zip_ids_nodup (aid : String) (docs : List Document) :
    (((addDocIds aid docs).zip docs).map Prod.fst).Nodup := by
  rw [List.map_fst_zip _ _ (addDocIds_length aid docs).le]
  exact addDocIds_nodup aid docs

theorem addWithIds_from_empty (aid : String) (docs : List Document) :
    (VectorStore.addWithIds ⟨[]⟩ docs (addDocIds aid docs)).entries =
      (addDocIds aid docs).zip docs := by
  rw [VectorStore.addWithIds]
  show ((addDocIds aid docs).zip docs).foldl (fun acc p => dictInsert acc p.1 p.2) [] = _
  rw [foldIns_append_of_fresh _ [] (fun p _ => rfl) (zip_ids_nodup aid docs),
    List.nil_append]

theorem find?_zip_ids (aid : String) (docs : List Document) :
    ∀ (off i : Nat), i < docs.length →
    (((List.range docs.length).map
        (fun j => aid ++ "_" ++ Nat.repr (off + j))).zip docs).find?
      (fun p => p.1 == aid ++ "_" ++ Nat.repr (off + i)) =
      (docs.get? i).map (fun d => (aid ++ "_" ++ Nat.repr (off + i), d)) := by
  induction docs with
  | nil =>
    intro off i hi
    exact absurd hi (by simp)
  | cons d ds ih =>
    intro off i hi
    rw [List.length_cons, List.range_succ_eq_map, List.map_cons, List.map_map,
      List.zip_cons_cons]
    cases i with
    | zero =>
      simp only [List.find?_cons, beq_self_eq_true, List.get?_cons_zero,
        Option.map_some']
    | succ j =>
      have hne : ((aid ++ "_" ++ Nat.repr (off + 0)) ==
          (aid ++ "_" ++ Nat.repr (off + (j + 1)))) = false := by
        refine beq_eq_false_iff_ne.2 (fun hc => ?_)
        have := append_repr_inj aid hc
        omega
      simp only [List.find?_cons, hne, List.get?_cons_succ]
      have hfun : ((fun j => aid ++ "_" ++ Nat.repr (off + j)) ∘ Nat.succ) =
          (fun j' => aid ++ "_" ++ Nat.repr ((off + 1) + j')) := by
        funext j'
        show aid ++ "_" ++ Nat.repr (off + (j' + 1)) = _
        have h : off + (j' + 1) = (off + 1) + j' := by omega
        rw [h]
      rw [hfun]
      have hkey : off + (j + 1) = (off + 1) + j := by omega
      rw [hkey]
      exact ih (off + 1) j (Nat.lt_of_succ_lt_succ (by simpa using hi))

theorem find?_zip_addDocIds (aid : String) (docs : List Document) (i : Nat)
    (hi : i < docs.length) :
    ((addDocIds aid docs).zip docs).find?
        (fun p => p.1 == aid ++ "_" ++ Nat.repr i) =
      (docs.get? i).map (fun d => (aid ++ "_" ++ Nat.repr i, d)) := by
  have h := find?_zip_ids aid docs 0 i hi
  rw [show (fun j => aid ++ "_" ++ Nat.repr (0 + j)) =
    (fun j => aid ++ "_" ++ Nat.repr j) from
    funext (fun j => by rw [Nat.zero_add])] at h
  rw [Nat.zero_add] at h
  exact h

theorem add_documents_singleton (a : RAGAgent) (docs : List Document)
    (vs : VectorStore) :
    a.add_documents docs [(a.config.agent_id, vs)] =
      [(a.config.agent_id,
        vs.addWithIds docs (addDocIds a.config.agent_id docs))] := by
  rw [RAGAgent.add_documents, List.map_cons, List.map_nil,
    if_pos (beq_self_eq_true a.config.agent_id)]

theorem dictGet_singleton_self {α : Type} (k : String) (v : α) :
    dictGet [(k, v)] k = some v := by
  rw [dictGet]
  simp only [List.find?_cons, beq_self_eq_true]
  rfl

/-- C2: add_documents assigns the batch the ids `<agent_id>_0 .. <agent_id>_{n-1}`
in order, restarting the index at 0 on every call: starting from an empty
collection, adding a batch of n documents and then a batch of m ≤ n
documents leaves n stored entries, with ids `<agent_id>_i` for i < m now
bound to the second batch's documents (overwritten) and ids for m ≤ i < n
still bound to the first batch's. -/
theorem add_documents_restarts_ids (a : RAGAgent) (docs1 docs2 : List Document)
    (hm : docs2.length ≤ docs1.length) :
    ∃ vs : VectorStore,
      dictGet (a.add_documents docs2 (a.add_documents docs1
          [(a.config.agent_id, ⟨[]⟩)])) a.config.agent_id = some vs ∧
      vs.entries.length = docs1.length ∧
      (∀ i, i < docs2.length →
        dictGet vs.entries (a.config.agent_id ++ "_" ++ Nat.repr i) =
          docs2.get? i) ∧
      (∀ i, docs2.length ≤ i → i < docs1.length →
        dictGet vs.entries (a.config.agent_id ++ "_" ++ Nat.repr i) =
          docs1.get? i) := by
  rw [add_documents_singleton, add_documents_singleton]
  set aid := a.config.agent_id with haid
  set vs1 : VectorStore := VectorStore.addWithIds ⟨[]⟩ docs1 (addDocIds aid docs1)
    with hvs1def
  have hvs1 : vs1.entries = (addDocIds aid docs1).zip docs1 :=
    addWithIds_from_empty aid docs1
  have hlen1 : vs1.entries.length = docs1.length := by
    rw [hvs1, List.length_zip, addDocIds_length, Nat.min_self]
  have hkeys1 : vs1.entries.map Prod.fst = addDocIds aid docs1 := by
    rw [hvs1, List.map_fst_zip _ _ (addDocIds_length aid docs1).le]
  have hpres : ∀ p ∈ (addDocIds aid docs2).zip docs2,
      vs1.entries.any (fun q => q.1 == p.1) = true := by
    intro p hp
    have hp1 : p.1 ∈ addDocIds aid docs2 := (List.of_mem_zip hp).1
    obtain ⟨j, hj, hpe⟩ := (mem_addDocIds aid docs2 p.1).1 hp1
    have hj1 : p.1 ∈ addDocIds aid docs1 :=
      (mem_addDocIds aid docs1 p.1).2 ⟨j, lt_of_lt_of_le hj hm, hpe⟩
    rw [any_key, hkeys1]
    exact List.any_eq_true.2 ⟨p.1, hj1, beq_self_eq_true p.1⟩
  have hnd2 : (((addDocIds aid docs2).zip docs2).map Prod.fst).Nodup :=
    zip_ids_nodup aid docs2
  have hentries : (vs1.addWithIds docs2 (addDocIds aid docs2)).entries =
      ((addDocIds aid docs2).zip docs2).foldl
        (fun acc p => dictInsert acc p.1 p.2) vs1.entries := rfl
  refine ⟨_, dictGet_singleton_self _ _, ?_, ?_, ?_⟩
  · have hkeys2 := foldIns_keys_of_present ((addDocIds aid docs2).zip docs2)
      vs1.entries hpres
    rw [hentries]
    have hl := congrArg List.length hkeys2
    rw [List.length_map, List.length_map] at hl
    rw [hl, hlen1]
  · intro i hi
    rw [hentries, foldIns_dictGet _ _ _ hnd2, find?_zip_addDocIds aid docs2 i hi]
    cases hget : docs2.get? i with
    | some d => simp
    | none => exact absurd (List.get?_eq_none.1 hget) (by omega)
  · intro i him hin
    rw [hentries, foldIns_dictGet _ _ _ hnd2]
    have hfnone : ((addDocIds aid docs2).zip docs2).find?
        (fun p => p.1 == aid ++ "_" ++ Nat.repr i) = none := by
      refine List.find?_eq_none.2 ?_
      intro p hp hbeq
      have hp1 : p.1 ∈ addDocIds aid docs2 := (List.of_mem_zip hp).1
      obtain ⟨j, hj, hpe⟩ := (mem_addDocIds aid docs2 p.1).1 hp1
      have heq : p.1 = aid ++ "_" ++ Nat.repr i := eq_of_beq hbeq
      rw [hpe] at heq
      have := append_repr_inj aid heq
      omega
    rw [hfnone, hvs1, dictGet, find?_zip_addDocIds aid docs1 i hin]
    cases hget : docs1.get? i with
    | some d => simp
    | none => exact absurd (List.get?_eq_none.1 hget) (by omega)

/-- Witness for C2: two documents then one document into a fresh store —
the id a_0 now holds the second batch's document, a_1 still holds the
first batch's second document, and the store has two entries. -/
theorem add_documents_restarts_ids_witness :
    ∃ vs : VectorStore,
      dictGet (agentA.add_documents [docC] (agentA.add_documents [docA, docB]
          [(agentA.config.agent_id, ⟨[]⟩)])) agentA.config.agent_id = some vs ∧
      vs.entries.length = 2 ∧
      dictGet vs.entries (agentA.config.agent_id ++ "_" ++ Nat.repr 0) = some docC ∧
      dictGet vs.entries (agentA.config.agent_id ++ "_" ++ Nat.repr 1) = some docB := by
  obtain ⟨vs, h1, h2, h3, h4⟩ :=
    add_documents_restarts_ids agentA [docA, docB] [docC] (by decide)
  exact ⟨vs, h1, h2, h3 0 (by decide), h4 1 (by decide) (by decide)⟩

end RagSpec


